import Mathlib

/-!
Verification of the `mine` repository's notify-stage example hook
(`docs/examples/hooks/all-commands.notify.py`).

The hook is a single linear Python function: it parses one JSON object from
standard input, resolves a data directory from the environment, creates the
log directory, builds a four-field summary record and appends its JSON
serialization plus a newline to `<data-dir>/mine/command_log.jsonl`.

We embed the script shallowly: JSON values are an inductive type, the
environment is a lookup function, the clock is a string parameter, and the
file system is an explicit state (a list of existing directories and an
association list from paths to file contents).  Each step of `main` becomes
a Lean definition; `runHook` composes them exactly in the source's order.
-/

namespace MineHook

/-- JSON values as produced by `json.load`.  Numbers are modelled as
integers; no claim involves fractional numbers. -/
inductive Json where
  | null : Json
  | bool : Bool → Json
  | num : Int → Json
  | str : String → Json
  | arr : List Json → Json
  | obj : List (String × Json) → Json

/-- Errors that abort the invocation: a JSON parse failure at
`json.load(sys.stdin)`, an attribute error when `.get` is called on a
non-dict, and a type error when `len` is applied to an unsized value. -/
inductive Err where
  | parse : Err
  | attr : Err
  | typeErr : Err
deriving Repr, DecidableEq

/-- Lookup of a key in the association list backing a parsed JSON object
(the dict produced by `json.load` has unique keys). -/
def lookupKey : List (String × Json) → String → Option Json
  | [], _ => none
  | (k', v) :: rest, k => if k = k' then some v else lookupKey rest k

/-- Python `dict.get(key, default)`: the stored value when the key is
present (even if that value is `None`), otherwise the default. -/
def dictGet (kvs : List (String × Json)) (k : String) (d : Json) : Json :=
  match lookupKey kvs k with
  | some v => v
  | none => d

/-- Python `len` on a JSON value: defined for arrays, objects and strings,
a `TypeError` otherwise. -/
def pyLen : Json → Option Nat
  | Json.arr xs => some xs.length
  | Json.obj kvs => some kvs.length
  | Json.str s => some s.length
  | _ => none

/-- Hex digit used by the `\uXXXX` escapes of `json.dumps`. -/
def hexDigit (n : Nat) : Char :=
  if n < 10 then Char.ofNat (48 + n) else Char.ofNat (87 + n)

/-- Four-digit lowercase hex rendering used by `json.dumps` escapes. -/
def hex4 (n : Nat) : List Char :=
  [hexDigit (n / 4096 % 16), hexDigit (n / 256 % 16),
   hexDigit (n / 16 % 16), hexDigit (n % 16)]

/-- Escape of one character inside a JSON string, following `json.dumps`
with its default `ensure_ascii=True`. -/
def escapeChar (c : Char) : List Char :=
  if c = '"' then ['\\', '"']
  else if c = '\\' then ['\\', '\\']
  else if c = '\n' then ['\\', 'n']
  else if c = '\t' then ['\\', 't']
  else if c = '\r' then ['\\', 'r']
  else if c.toNat = 8 then ['\\', 'b']
  else if c.toNat = 12 then ['\\', 'f']
  else if c.toNat < 32 || c.toNat > 126 then
    if c.toNat < 65536 then '\\' :: 'u' :: hex4 c.toNat
    else
      ('\\' :: 'u' :: hex4 (55296 + (c.toNat - 65536) / 1024)) ++
      ('\\' :: 'u' :: hex4 (56320 + (c.toNat - 65536) % 1024))
  else [c]

/-- `json.dumps` rendering of a string, quotes included. -/
def dumpsStr (s : String) : String :=
  String.mk ('"' :: (s.data.flatMap escapeChar) ++ ['"'])

mutual

/-- `json.dumps` with its default separators `", "` and `": "`; dict
insertion order is preserved, as in Python. -/
def dumps : Json → String
  | Json.null => "null"
  | Json.bool true => "true"
  | Json.bool false => "false"
  | Json.num n => toString n
  | Json.str s => dumpsStr s
  | Json.arr xs => "[" ++ dumpsItems xs ++ "]"
  | Json.obj kvs => "\x7b" ++ dumpsMembers kvs ++ "\x7d"

/-- Comma-separated rendering of array items. -/
def dumpsItems : List Json → String
  | [] => ""
  | [x] => dumps x
  | x :: y :: rest => dumps x ++ ", " ++ dumpsItems (y :: rest)

/-- Comma-separated rendering of object members. -/
def dumpsMembers : List (String × Json) → String
  | [] => ""
  | [(k, v)] => dumpsStr k ++ ": " ++ dumps v
  | (k, v) :: m :: rest => dumpsStr k ++ ": " ++ dumps v ++ ", " ++ dumpsMembers (m :: rest)

end

/-- The `entry` dict built at lines 36-41 of the script.  Evaluation order
follows Python: `.get` on a non-dict context raises `AttributeError`;
`len` on an unsized `args`/`flags` value raises `TypeError`.  The `now`
parameter is the string `datetime.now(timezone.utc).isoformat()` would
return at this instant. -/
def buildEntry (context : Json) (now : String) : Except Err Json :=
  match context with
  | Json.obj kvs =>
    let command := dictGet kvs "command" (Json.str "unknown")
    let timestamp := dictGet kvs "timestamp" (Json.str now)
    match pyLen (dictGet kvs "args" (Json.arr [])) with
    | none => Except.error Err.typeErr
    | some argsCount =>
      match pyLen (dictGet kvs "flags" (Json.obj [])) with
      | none => Except.error Err.typeErr
      | some flagsCount =>
        Except.ok (Json.obj
          [("command", command),
           ("timestamp", timestamp),
           ("args_count", Json.num argsCount),
           ("flags_count", Json.num flagsCount)])
  | _ => Except.error Err.attr

/-- `os.environ.get("XDG_DATA_HOME", os.path.expanduser("~/.local/share"))`:
the variable's value whenever it is present in the environment, otherwise
the fixed default under the user's home directory. -/
def resolveDataDir (env : String → Option String) (home : String) : String :=
  match env "XDG_DATA_HOME" with
  | some v => v
  | none => home ++ "/.local/share"

/-- `Path(data_dir) / "mine" / "command_log.jsonl"`. -/
def logPath (dataDir : String) : String := dataDir ++ "/mine/command_log.jsonl"

/-- `log_path.parent`, the directory handed to `mkdir`. -/
def logParent (dataDir : String) : String := dataDir ++ "/mine"

/-- Split a character list at every slash, keeping empty components. -/
def splitOnSlash : List Char → List (List Char)
  | [] => [[]]
  | c :: rest =>
    let r := splitOnSlash rest
    if c = '/' then [] :: r
    else
      match r with
      | [] => [[c]]
      | g :: gs => (c :: g) :: gs

/-- Rejoin path components with slashes. -/
def joinSlash : List (List Char) → List Char
  | [] => []
  | [g] => g
  | g :: h :: t => g ++ '/' :: joinSlash (h :: t)

/-- All ancestor paths of `p`, `p` itself included: the directories that
exist after `mkdir(p, parents=True, exist_ok=True)`. -/
def pathAncestors (p : String) : List String :=
  let comps := splitOnSlash p.data
  (List.range comps.length).map fun i => String.mk (joinSlash (comps.take (i + 1)))

/-- The file-system state the hook touches: the set of existing
directories and the contents of regular files, keyed by path. -/
structure FS where
  dirs : List String
  files : List (String × String)
deriving Repr, DecidableEq

/-- Record a directory as existing (no effect when it already does). -/
def insertDir (dirs : List String) (d : String) : List String :=
  if d ∈ dirs then dirs else d :: dirs

/-- `Path.mkdir(parents=True, exist_ok=True)`: afterwards the directory
and all its ancestors exist; it never fails. -/
def FS.mkdirParents (fs : FS) (p : String) : FS :=
  { fs with dirs := (pathAncestors p).foldl insertDir fs.dirs }

/-- Contents of the file at `k`, when it exists. -/
def getFile : List (String × String) → String → Option String
  | [], _ => none
  | (k', v) :: rest, k => if k = k' then some v else getFile rest k

/-- Contents of the file at `k`, the empty string when it is absent. -/
def getFileD (files : List (String × String)) (k : String) : String :=
  (getFile files k).getD ""

/-- Replace (or create) the file at `k` with contents `v`. -/
def setFile : List (String × String) → String → String → List (String × String)
  | [], k, v => [(k, v)]
  | (k', v') :: rest, k, v =>
    if k = k' then (k, v) :: rest else (k', v') :: setFile rest k v

/-- `open(p, "a")` followed by one `write`: the file is created when
absent and the new bytes are appended after the existing contents. -/
def FS.appendFile (fs : FS) (p : String) (s : String) : FS :=
  { fs with files := setFile fs.files p (getFileD fs.files p ++ s) }

/-- Outcome of one hook invocation: the final file-system state and the
process exit condition (`none` is exit status 0, `some e` the uncaught
exception `e`). -/
structure HookResult where
  fs : FS
  exit : Option Err
deriving Repr, DecidableEq

/-- Numeric process exit status: 0 on success, 1 when the invocation dies
with an uncaught exception, as a Python process does. -/
def HookResult.exitCode (r : HookResult) : Nat :=
  match r.exit with
  | none => 0
  | some _ => 1

/-- The whole of `main`, in the source's order: parse stdin (`none`
models absent, empty or malformed JSON input, on which `json.load`
raises before anything else runs), resolve the data directory, create the
log directory, build the entry, append its serialization plus a
newline. -/
def runHook (stdin : Option Json) (env : String → Option String)
    (home : String) (now : String) (fs : FS) : HookResult :=
  match stdin with
  | none => { fs := fs, exit := some Err.parse }
  | some context =>
    let dataDir := resolveDataDir env home
    let fs1 := fs.mkdirParents (logParent dataDir)
    match buildEntry context now with
    | Except.error e => { fs := fs1, exit := some e }
    | Except.ok entry =>
      { fs := fs1.appendFile (logPath dataDir) (dumps entry ++ "\n"), exit := none }

/-- The trailing UTC offset `+00:00` that
`datetime.now(timezone.utc).isoformat()` emits. -/
def isTzUTC : List Char → Bool
  | ['+', '0', '0', ':', '0', '0'] => true
  | _ => false

/-- One or more fractional-second digits followed by the UTC offset. -/
def digitsTz : List Char → Bool
  | [] => false
  | c :: cs => c.isDigit && (isTzUTC cs || digitsTz cs)

/-- Modelled from the spec: the `datetime` library is not part of the
repository, so the shape of `datetime.now(timezone.utc).isoformat()` —
"a valid ISO-8601 UTC timestamp" — is modelled as this checker:
`YYYY-MM-DDTHH:MM:SS[.ffffff]+00:00`. -/
def isIso8601UTC (s : String) : Bool :=
  match s.data with
  | y1 :: y2 :: y3 :: y4 :: '-' :: mo1 :: mo2 :: '-' :: d1 :: d2 :: 'T' ::
      h1 :: h2 :: ':' :: mi1 :: mi2 :: ':' :: s1 :: s2 :: rest =>
    [y1, y2, y3, y4, mo1, mo2, d1, d2, h1, h2, mi1, mi2, s1, s2].all Char.isDigit &&
    (isTzUTC rest ||
      (match rest with
       | '.' :: frac => digitsTz frac
       | _ => false))
  | _ => false

/-- Field access on a serialized-entry object. -/
def Json.getField (j : Json) (k : String) : Option Json :=
  match j with
  | Json.obj kvs => lookupKey kvs k
  | _ => none

/-- The spec's worked example input. -/
def exampleContext : Json := Json.obj
  [("command", Json.str "build"),
   ("timestamp", Json.str "2024-01-01T00:00:00Z"),
   ("args", Json.arr [Json.str "--release"]),
   ("flags", Json.obj [("verbose", Json.bool true)])]

/-- The spec's worked example output line (without the trailing newline). -/
def exampleLine : String :=
  "\x7b\"command\": \"build\", \"timestamp\": \"2024-01-01T00:00:00Z\", \"args_count\": 1, \"flags_count\": 1\x7d"

/-- An environment with no variables set. -/
def env0 : String → Option String := fun _ => none

/-- An environment in which `XDG_DATA_HOME` is set to the empty string. -/
def emptyXdgEnv : String → Option String :=
  fun k => if k = "XDG_DATA_HOME" then some "" else none

/-- A pristine file system. -/
def fs0 : FS := { dirs := [], files := [] }

/-- One concrete successful invocation on the pristine file system. -/
def run1 : HookResult := runHook (some exampleContext) env0 "/home/user" "TS" fs0

/-- A second invocation on the state `run1` left behind. -/
def run2 : HookResult := runHook (some exampleContext) env0 "/home/user" "TS" run1.fs

/-! ### Helper lemmas about the file-system model -/

theorem getFile_setFile_self (files : List (String × String)) (p v : String) :
    getFile (setFile files p v) p = some v := by
  induction files with
  | nil => simp [setFile, getFile]
  | cons kv rest ih =>
    obtain ⟨k', v'⟩ := kv
    by_cases h : p = k' <;> simp [setFile, getFile, h, ih]

theorem getFile_setFile_ne (files : List (String × String)) (p q v : String)
    (h : q ≠ p) : getFile (setFile files p v) q = getFile files q := by
  induction files with
  | nil => simp [setFile, getFile, h]
  | cons kv rest ih =>
    obtain ⟨k', v'⟩ := kv
    by_cases hp : p = k'
    · subst hp
      simp [setFile, getFile, h]
    · by_cases hq : q = k' <;> simp [setFile, getFile, hp, hq, ih]

theorem mem_insertDir (dirs : List String) (d y : String) (h : y ∈ dirs) :
    y ∈ insertDir dirs d := by
  unfold insertDir
  split
  · exact h
  · exact List.mem_cons_of_mem _ h

theorem self_mem_insertDir (dirs : List String) (d : String) :
    d ∈ insertDir dirs d := by
  unfold insertDir
  split
  · assumption
  · exact List.mem_cons_self _ _

theorem mem_foldl_insertDir (xs : List String) :
    ∀ dirs y, y ∈ dirs → y ∈ xs.foldl insertDir dirs := by
  induction xs with
  | nil => intro dirs y h; exact h
  | cons x xs ih =>
    intro dirs y h
    exact ih (insertDir dirs x) y (mem_insertDir dirs x y h)

theorem mem_foldl_insertDir_of_mem (xs : List String) :
    ∀ dirs x, x ∈ xs → x ∈ xs.foldl insertDir dirs := by
  induction xs with
  | nil => intro dirs x h; cases h
  | cons y ys ih =>
    intro dirs x h
    rcases List.mem_cons.mp h with h | h
    · subst h
      exact mem_foldl_insertDir ys (insertDir dirs x) x (self_mem_insertDir dirs x)
    · exact ih (insertDir dirs y) x h

theorem insertDir_eq_of_mem (dirs : List String) (d : String) (h : d ∈ dirs) :
    insertDir dirs d = dirs := by
  unfold insertDir
  rw [if_pos h]

theorem foldl_insertDir_eq_of (xs : List String) :
    ∀ dirs, (∀ x ∈ xs, x ∈ dirs) → xs.foldl insertDir dirs = xs.foldl (fun a _ => a) dirs := by
  induction xs with
  | nil => intro dirs _; rfl
  | cons x xs ih =>
    intro dirs h
    simp only [List.foldl_cons]
    rw [insertDir_eq_of_mem dirs x (h x (List.mem_cons_self _ _))]
    exact ih dirs fun y hy => h y (List.mem_cons_of_mem _ hy)

theorem foldl_const (xs : List String) : ∀ dirs : List String, xs.foldl (fun a _ => a) dirs = dirs := by
  induction xs with
  | nil => intro dirs; rfl
  | cons x xs ih => intro dirs; exact ih dirs

theorem mkdirParents_idem (fs : FS) (p : String) :
    (fs.mkdirParents p).mkdirParents p = fs.mkdirParents p := by
  unfold FS.mkdirParents
  have h : ∀ x ∈ pathAncestors p, x ∈ (pathAncestors p).foldl insertDir fs.dirs :=
    fun x hx => mem_foldl_insertDir_of_mem (pathAncestors p) fs.dirs x hx
  rw [foldl_insertDir_eq_of (pathAncestors p) _ h, foldl_const]

/-! ### Helper lemmas about the hook's steps -/

theorem buildEntry_ok_elim (kvs : List (String × Json)) (now : String) (e : Json)
    (h : buildEntry (Json.obj kvs) now = Except.ok e) :
    ∃ a f, pyLen (dictGet kvs "args" (Json.arr [])) = some a ∧
      pyLen (dictGet kvs "flags" (Json.obj [])) = some f ∧
      e = Json.obj
        [("command", dictGet kvs "command" (Json.str "unknown")),
         ("timestamp", dictGet kvs "timestamp" (Json.str now)),
         ("args_count", Json.num a), ("flags_count", Json.num f)] := by
  unfold buildEntry at h
  rcases h1 : pyLen (dictGet kvs "args" (Json.arr [])) with _ | a <;>
    rcases h2 : pyLen (dictGet kvs "flags" (Json.obj [])) with _ | f <;>
    simp only [h1, h2] at h <;> simp at h
  exact ⟨a, f, rfl, rfl, h.symm⟩

theorem buildEntry_shape (context : Json) (now : String) (e : Json)
    (h : buildEntry context now = Except.ok e) :
    ∃ c t a f, e = Json.obj
      [("command", c), ("timestamp", t),
       ("args_count", Json.num a), ("flags_count", Json.num f)] := by
  cases context with
  | obj kvs =>
    obtain ⟨a, f, _, _, he⟩ := buildEntry_ok_elim kvs now e h
    exact ⟨_, _, a, f, he⟩
  | null => simp [buildEntry] at h
  | bool b => simp [buildEntry] at h
  | num n => simp [buildEntry] at h
  | str s => simp [buildEntry] at h
  | arr xs => simp [buildEntry] at h

theorem runHook_ok_elim (context : Json) (env : String → Option String)
    (home now : String) (fs : FS) (r : HookResult)
    (h : runHook (some context) env home now fs = r) (he : r.exit = none) :
    ∃ entry, buildEntry context now = Except.ok entry ∧
      r.fs = (fs.mkdirParents (logParent (resolveDataDir env home))).appendFile
        (logPath (resolveDataDir env home)) (dumps entry ++ "\n") := by
  unfold runHook at h
  rcases hb : buildEntry context now with e | entry <;> simp only [hb] at h
  · rw [← h] at he
    simp at he
  · exact ⟨entry, rfl, by rw [← h]⟩

/-! ### The claims -/

/-- C1: for every invocation context whose `args` field is a sequence of
length n and whose `flags` field is a mapping with m entries, the log
entry has `args_count = n` and `flags_count = m`; an absent `args` or
`flags` yields count 0. -/
theorem entry_counts (kvs : List (String × Json)) (now : String)
    (xs : List Json) (fl : List (String × Json))
    (hargs : lookupKey kvs "args" = some (Json.arr xs) ∨
      (lookupKey kvs "args" = none ∧ xs = []))
    (hflags : lookupKey kvs "flags" = some (Json.obj fl) ∨
      (lookupKey kvs "flags" = none ∧ fl = [])) :
    ∃ c t, buildEntry (Json.obj kvs) now = Except.ok (Json.obj
      [("command", c), ("timestamp", t),
       ("args_count", Json.num xs.length), ("flags_count", Json.num fl.length)]) := by
  refine ⟨dictGet kvs "command" (Json.str "unknown"),
    dictGet kvs "timestamp" (Json.str now), ?_⟩
  unfold buildEntry
  rcases hargs with h | ⟨h, rfl⟩ <;> rcases hflags with h2 | ⟨h2, rfl⟩ <;>
    simp [dictGet, h, h2, pyLen]

theorem entry_counts_witness :
    ∃ c t, buildEntry (Json.obj [("args", Json.arr [Json.null])]) "TS" =
      Except.ok (Json.obj [("command", c), ("timestamp", t),
        ("args_count", Json.num 1), ("flags_count", Json.num 0)]) :=
  entry_counts [("args", Json.arr [Json.null])] "TS" [Json.null] []
    (Or.inl rfl) (Or.inr ⟨rfl, rfl⟩)

/-- C2: on the spec's example input the hook appends exactly the example
line (in the source's field order), and every entry built by the hook is
an object with exactly the four fields `command`, `timestamp`,
`args_count`, `flags_count`. -/
theorem example_line_exact :
    ((runHook (some exampleContext) env0 "/home/user" "2026-02-03T04:05:06+00:00" fs0).exit
        = none ∧
      getFile (runHook (some exampleContext) env0 "/home/user"
          "2026-02-03T04:05:06+00:00" fs0).fs.files
        (logPath (resolveDataDir env0 "/home/user")) = some (exampleLine ++ "\n")) ∧
    ∀ context now e, buildEntry context now = Except.ok e →
      ∃ c t a f, e = Json.obj [("command", c), ("timestamp", t),
        ("args_count", Json.num a), ("flags_count", Json.num f)] :=
  ⟨⟨rfl, rfl⟩, fun context now e h => buildEntry_shape context now e h⟩

theorem example_line_exact_witness :
    ∃ c t a f, Json.obj [("command", Json.str "build"),
      ("timestamp", Json.str "2024-01-01T00:00:00Z"),
      ("args_count", Json.num 1), ("flags_count", Json.num 1)] =
      Json.obj [("command", c), ("timestamp", t),
        ("args_count", Json.num a), ("flags_count", Json.num f)] :=
  example_line_exact.2 exampleContext "TS" _ rfl

/-- C3: when the input object has no `command` key, the written entry's
`command` field is the string `"unknown"`. -/
theorem command_defaults_unknown (kvs : List (String × Json)) (now : String) (e : Json)
    (hc : lookupKey kvs "command" = none)
    (h : buildEntry (Json.obj kvs) now = Except.ok e) :
    e.getField "command" = some (Json.str "unknown") := by
  obtain ⟨a, f, _, _, he⟩ := buildEntry_ok_elim kvs now e h
  subst he
  simp [Json.getField, lookupKey, dictGet, hc]

theorem command_defaults_unknown_witness :
    Json.getField (Json.obj [("command", Json.str "unknown"),
      ("timestamp", Json.str "T"),
      ("args_count", Json.num 0), ("flags_count", Json.num 0)]) "command" =
      some (Json.str "unknown") :=
  command_defaults_unknown [] "T"
    (Json.obj [("command", Json.str "unknown"), ("timestamp", Json.str "T"),
      ("args_count", Json.num 0), ("flags_count", Json.num 0)]) rfl rfl

/-- C4: when the input object has no `timestamp` key, the written entry's
`timestamp` field is the clock's current ISO-8601 UTC rendering (the
`now` parameter, assumed well-formed as the `datetime` library
guarantees). -/
theorem timestamp_defaults_now (kvs : List (String × Json)) (now : String) (e : Json)
    (hiso : isIso8601UTC now = true)
    (ht : lookupKey kvs "timestamp" = none)
    (h : buildEntry (Json.obj kvs) now = Except.ok e) :
    ∃ t, e.getField "timestamp" = some (Json.str t) ∧
      isIso8601UTC t = true ∧ t = now := by
  obtain ⟨a, f, _, _, he⟩ := buildEntry_ok_elim kvs now e h
  subst he
  refine ⟨now, ?_, hiso, rfl⟩
  simp [Json.getField, lookupKey, dictGet, ht]

theorem timestamp_defaults_now_witness :
    ∃ t, Json.getField (Json.obj [("command", Json.str "unknown"),
      ("timestamp", Json.str "2024-01-01T00:00:00+00:00"),
      ("args_count", Json.num 0), ("flags_count", Json.num 0)]) "timestamp" =
      some (Json.str t) ∧ isIso8601UTC t = true ∧ t = "2024-01-01T00:00:00+00:00" :=
  timestamp_defaults_now [] "2024-01-01T00:00:00+00:00"
    (Json.obj [("command", Json.str "unknown"),
      ("timestamp", Json.str "2024-01-01T00:00:00+00:00"),
      ("args_count", Json.num 0), ("flags_count", Json.num 0)]) rfl rfl rfl

/-- C5 counterexample: with `XDG_DATA_HOME` set to the empty string the
data directory resolves to the empty string, not to the home-directory
fallback, contradicting the claim that a set-but-empty variable falls
back to the default. -/
theorem dataDir_empty_env_counterexample :
    emptyXdgEnv "XDG_DATA_HOME" = some "" ∧
    resolveDataDir emptyXdgEnv "/home/user" = "" ∧
    resolveDataDir emptyXdgEnv "/home/user" ≠ "/home/user/.local/share" := by
  refine ⟨rfl, rfl, ?_⟩
  decide

/-- C5 amended: the data directory is the variable's value whenever the
variable is set — even when it is set to the empty string — and the fixed
default under the home directory only when it is unset. -/
theorem dataDir_resolution (env : String → Option String) (home : String) :
    (env "XDG_DATA_HOME" = none →
      resolveDataDir env home = home ++ "/.local/share") ∧
    ∀ v, env "XDG_DATA_HOME" = some v → resolveDataDir env home = v := by
  constructor
  · intro h
    simp [resolveDataDir, h]
  · intro v h
    simp [resolveDataDir, h]

theorem dataDir_resolution_witness : resolveDataDir emptyXdgEnv "/home/user" = "" :=
  (dataDir_resolution emptyXdgEnv "/home/user").2 "" rfl

/-- C6: on absent, empty or malformed standard input `json.load` raises,
the process exits with a non-zero status and the file system — the log
file included — is completely untouched. -/
theorem parse_failure_no_write (env : String → Option String)
    (home now : String) (fs : FS) :
    (runHook none env home now fs).exitCode ≠ 0 ∧
    (runHook none env home now fs).fs = fs := by
  constructor
  · simp [runHook, HookResult.exitCode]
  · rfl

/-- C7: a successful invocation changes no file other than
`<data-dir>/mine/command_log.jsonl` and extends that file's previous
contents with exactly one newline-terminated serialized entry; two
successful invocations in sequence append exactly two such lines, and the
prior contents are never truncated or rewritten. -/
theorem append_only_log (c1 c2 : Json) (env : String → Option String)
    (home now1 now2 : String) (fs : FS) (r1 r2 : HookResult)
    (h1 : runHook (some c1) env home now1 fs = r1) (e1 : r1.exit = none)
    (h2 : runHook (some c2) env home now2 r1.fs = r2) (e2 : r2.exit = none) :
    (∀ q, q ≠ logPath (resolveDataDir env home) →
      getFile r1.fs.files q = getFile fs.files q) ∧
    (∃ entry1, buildEntry c1 now1 = Except.ok entry1 ∧
      getFileD r1.fs.files (logPath (resolveDataDir env home)) =
        getFileD fs.files (logPath (resolveDataDir env home)) ++
          (dumps entry1 ++ "\n")) ∧
    (∀ q, q ≠ logPath (resolveDataDir env home) →
      getFile r2.fs.files q = getFile fs.files q) ∧
    ∃ entry1 entry2,
      getFileD r2.fs.files (logPath (resolveDataDir env home)) =
        getFileD fs.files (logPath (resolveDataDir env home)) ++
          (dumps entry1 ++ "\n") ++ (dumps entry2 ++ "\n") := by
  obtain ⟨x1, hb1, hr1⟩ := runHook_ok_elim c1 env home now1 fs r1 h1 e1
  obtain ⟨x2, hb2, hr2⟩ := runHook_ok_elim c2 env home now2 r1.fs r2 h2 e2
  have hf1 : r1.fs.files = setFile fs.files (logPath (resolveDataDir env home))
      (getFileD fs.files (logPath (resolveDataDir env home)) ++ (dumps x1 ++ "\n")) := by
    rw [hr1]
    rfl
  have hf2 : r2.fs.files = setFile r1.fs.files (logPath (resolveDataDir env home))
      (getFileD r1.fs.files (logPath (resolveDataDir env home)) ++ (dumps x2 ++ "\n")) := by
    rw [hr2]
    rfl
  have hc1 : getFileD r1.fs.files (logPath (resolveDataDir env home)) =
      getFileD fs.files (logPath (resolveDataDir env home)) ++ (dumps x1 ++ "\n") := by
    rw [hf1]
    simp [getFileD, getFile_setFile_self]
  refine ⟨?_, ⟨x1, hb1, hc1⟩, ?_, x1, x2, ?_⟩
  · intro q hq
    rw [hf1, getFile_setFile_ne _ _ _ _ hq]
  · intro q hq
    rw [hf2, getFile_setFile_ne _ _ _ _ hq, hf1, getFile_setFile_ne _ _ _ _ hq]
  · rw [hf2]
    simp [getFileD, getFile_setFile_self]
    rw [← getFileD, ← getFileD, hc1]

theorem append_only_log_witness :
    ∃ entry1 entry2,
      getFileD run2.fs.files (logPath (resolveDataDir env0 "/home/user")) =
        getFileD fs0.files (logPath (resolveDataDir env0 "/home/user")) ++
          (dumps entry1 ++ "\n") ++ (dumps entry2 ++ "\n") :=
  (append_only_log exampleContext exampleContext env0 "/home/user" "TS" "TS"
    fs0 run1 run2 rfl rfl rfl rfl).2.2.2

/-- C8: after a successful invocation every ancestor of the log file's
parent directory exists, the entry is still appended correctly, and the
directory-creation step is idempotent (repeating it on directories that
already exist changes nothing and cannot fail). -/
theorem parents_exist_and_mkdir_idempotent (context : Json)
    (env : String → Option String) (home now : String) (fs : FS) (r : HookResult)
    (h : runHook (some context) env home now fs = r) (he : r.exit = none) :
    (∀ d ∈ pathAncestors (logParent (resolveDataDir env home)), d ∈ r.fs.dirs) ∧
    (∃ entry, buildEntry context now = Except.ok entry ∧
      getFileD r.fs.files (logPath (resolveDataDir env home)) =
        getFileD fs.files (logPath (resolveDataDir env home)) ++
          (dumps entry ++ "\n")) ∧
    ∀ fs' p, FS.mkdirParents (FS.mkdirParents fs' p) p = FS.mkdirParents fs' p := by
  obtain ⟨entry, hb, hr⟩ := runHook_ok_elim context env home now fs r h he
  refine ⟨?_, ⟨entry, hb, ?_⟩, fun fs' p => mkdirParents_idem fs' p⟩
  · intro d hd
    rw [hr]
    simp only [FS.appendFile, FS.mkdirParents]
    exact mem_foldl_insertDir_of_mem _ fs.dirs d hd
  · rw [hr]
    simp only [FS.appendFile, FS.mkdirParents]
    simp [getFileD, getFile_setFile_self]

theorem parents_exist_witness :
    ∃ entry, buildEntry exampleContext "TS" = Except.ok entry ∧
      getFileD run1.fs.files (logPath (resolveDataDir env0 "/home/user")) =
        getFileD fs0.files (logPath (resolveDataDir env0 "/home/user")) ++
          (dumps entry ++ "\n") :=
  (parents_exist_and_mkdir_idempotent exampleContext env0 "/home/user" "TS"
    fs0 run1 rfl rfl).2.1

/-- C9: valid JSON that is not an object makes `.get` raise after the log
directory was already created: the process exits non-zero, no file
contents change, but the log file's ancestor directories do exist
afterwards. -/
theorem nonobject_input_fails_after_mkdir (v : Json) (env : String → Option String)
    (home now : String) (fs : FS) (hv : ∀ kvs, v ≠ Json.obj kvs) :
    (runHook (some v) env home now fs).exitCode ≠ 0 ∧
    (runHook (some v) env home now fs).fs.files = fs.files ∧
    ∀ d ∈ pathAncestors (logParent (resolveDataDir env home)),
      d ∈ (runHook (some v) env home now fs).fs.dirs := by
  obtain ⟨err, hb⟩ : ∃ err, buildEntry v now = Except.error err := by
    cases v with
    | obj kvs => exact absurd rfl (hv kvs)
    | null => exact ⟨Err.attr, rfl⟩
    | bool b => exact ⟨Err.attr, rfl⟩
    | num n => exact ⟨Err.attr, rfl⟩
    | str s => exact ⟨Err.attr, rfl⟩
    | arr xs => exact ⟨Err.attr, rfl⟩
  refine ⟨?_, ?_, ?_⟩
  · simp [runHook, hb, HookResult.exitCode]
  · simp [runHook, hb]
    rfl
  · intro d hd
    simp only [runHook, hb]
    exact mem_foldl_insertDir_of_mem _ fs.dirs d hd

theorem nonobject_input_witness :
    (runHook (some (Json.arr [])) env0 "/home/user" "TS" fs0).exitCode ≠ 0 ∧
    (runHook (some (Json.arr [])) env0 "/home/user" "TS" fs0).fs.files = fs0.files :=
  ⟨(nonobject_input_fails_after_mkdir (Json.arr []) env0 "/home/user" "TS" fs0
      (fun _kvs h => Json.noConfusion h)).1,
   (nonobject_input_fails_after_mkdir (Json.arr []) env0 "/home/user" "TS" fs0
      (fun _kvs h => Json.noConfusion h)).2.1⟩

/-- C10: the `"unknown"` and current-clock defaults apply only to absent
keys; a `command` or `timestamp` key that is present — whatever its
value, `null` and non-strings included — is copied into the entry
verbatim. -/
theorem present_fields_verbatim (kvs : List (String × Json)) (now : String) (e : Json)
    (h : buildEntry (Json.obj kvs) now = Except.ok e) :
    (∀ v, lookupKey kvs "command" = some v → e.getField "command" = some v) ∧
    ∀ w, lookupKey kvs "timestamp" = some w → e.getField "timestamp" = some w := by
  obtain ⟨a, f, _, _, he⟩ := buildEntry_ok_elim kvs now e h
  subst he
  constructor
  · intro v hv
    simp [Json.getField, lookupKey, dictGet, hv]
  · intro w hw
    simp [Json.getField, lookupKey, dictGet, hw]

theorem present_fields_verbatim_witness :
    Json.getField (Json.obj [("command", Json.null), ("timestamp", Json.num 5),
      ("args_count", Json.num 0), ("flags_count", Json.num 0)]) "command" =
      some Json.null :=
  (present_fields_verbatim [("command", Json.null), ("timestamp", Json.num 5)] "TS"
    (Json.obj [("command", Json.null), ("timestamp", Json.num 5),
      ("args_count", Json.num 0), ("flags_count", Json.num 0)]) rfl).1 Json.null rfl

end MineHook
